import Mathlib

/-!
A shallow embedding of the control-plane HTTP API in `src/api/api.go`
(package `api` of github.com/haveachin/infrared) together with proofs
about its behaviour.

Modelling conventions:
* file contents and HTTP bodies are `String`s (byte sequences);
* the filesystem is a finite association of full paths to contents,
  kept in directory order;
* fallible OS calls (`os.WriteFile`, `os.Rename`, `os.Open`, `os.Remove`,
  `ioutil.ReadDir`, reading a request body) are driven by an `IOOracle`
  that decides, per path, whether the environment makes the call fail;
* the `net/http` response writer is modelled by `RespWriter`: the first
  `WriteHeader` fixes the status, a `Write` before any `WriteHeader`
  fixes it to 200, later `WriteHeader` calls are ignored;
* `strings.Split` is modelled on `List Char` (`splitChar` for a
  one-character separator; `beforeFirstSub` for the `[0]` component of a
  split on a longer separator), because the kernel cannot evaluate
  `String.splitOn`.
-/

namespace InfraredApi

/-- Modelled from the spec: `infrared.ProxyConfig` (the struct
`checkJSONAndRegister` unmarshals into) is not under `src/`; per §3/§6 of
the spec it exposes `domainNames` (list of strings) and `proxyTo`
(string); all other fields are opaque and irrelevant to validation. -/
structure ProxyConfig where
  domainNames : List String
  proxyTo : String

/-- A filesystem: full path ↦ content, in directory order. -/
structure FS where
  files : List (String × String)

/-- Look a path up in an association list of files. -/
def lookupFile : List (String × String) → String → Option String
  | [], _ => none
  | e :: rest, p => if e.1 = p then some e.2 else lookupFile rest p

/-- Remove every entry for a path. -/
def eraseFile : List (String × String) → String → List (String × String)
  | [], _ => []
  | e :: rest, p => if e.1 = p then eraseFile rest p else e :: eraseFile rest p

def FS.get (fs : FS) (p : String) : Option String :=
  lookupFile fs.files p

def FS.erase (fs : FS) (p : String) : FS :=
  ⟨eraseFile fs.files p⟩

/-- Create or overwrite the file at `p` with content `c`. -/
def FS.setFile (fs : FS) (p : String) (c : String) : FS :=
  ⟨(p, c) :: eraseFile fs.files p⟩

/-- Set a path to an optional content (`none` = no file). -/
def FS.setOpt (fs : FS) (p : String) (c : Option String) : FS :=
  match c with
  | none => fs.erase p
  | some c => fs.setFile p c

/-- Environment oracle: which OS calls fail, and with what effect.
`failContent p` is whatever the environment leaves at `p` after a failed
`os.WriteFile` (possibly nothing). -/
structure IOOracle where
  bodyReadFails : Bool
  readDirFails : String → Bool
  openFails : String → Bool
  readFails : String → Bool
  writeFails : String → Bool
  renameFails : String → String → Bool
  removeFails : String → Bool
  removeFailMsg : String → String
  failContent : String → Option String

/-- The failure-free environment. -/
def noFailOracle : IOOracle :=
  ⟨false, fun _ => false, fun _ => false, fun _ => false, fun _ => false,
   fun _ _ => false, fun _ => false, fun _ => "", fun _ => none⟩

/-- Model of `os.WriteFile path content 0644`: on success the file holds exactly
`content`; on failure the environment decides what is left at `path`
(the final component of any other path is untouched either way). -/
def osWriteFile (o : IOOracle) (fs : FS) (p c : String) : Bool × FS :=
  if o.writeFails p then (false, fs.setOpt p (o.failContent p))
  else (true, fs.setFile p c)

/-- Model of `os.Rename old new`: atomic; on success `new` holds exactly the old
content of `old` and `old` is gone; on failure nothing changes. -/
def osRename (o : IOOracle) (fs : FS) (oldPath newPath : String) : Bool × FS :=
  match fs.get oldPath with
  | none => (false, fs)
  | some c =>
    if o.renameFails oldPath newPath then (false, fs)
    else (true, (fs.erase oldPath).setFile newPath c)

/-- Model of `os.Open p` (plus the subsequent read handle): fails when no file exists at `p` or when the
environment makes the open fail (permissions, fd exhaustion, ...). -/
def osOpen (o : IOOracle) (fs : FS) (p : String) : Option String :=
  match fs.get p with
  | none => none
  | some c => if o.openFails p then none else some c

/-- Model of `os.Remove p`: error (with the Go message) when the file is absent;
environment-chosen error otherwise possible; on success the file is gone. -/
def osRemove (o : IOOracle) (fs : FS) (p : String) : Option String × FS :=
  match fs.get p with
  | none => (some ("remove " ++ p ++ ": no such file or directory"), fs)
  | some _ =>
    if o.removeFails p then (some (o.removeFailMsg p), fs)
    else (none, fs.erase p)

/-- Is `pat` an initial segment of `s`? -/
def beginsWith : List Char → List Char → Bool
  | [], _ => true
  | _ :: _, [] => false
  | a :: as, b :: bs => a = b && beginsWith as bs

/-- Base name of `p` when `p` lies directly in directory `dir`. -/
def dirEntryName (dir p : String) : Option String :=
  if beginsWith (dir ++ "/").data p.data then
    let rest := p.data.drop (dir ++ "/").data.length
    if rest = [] then none
    else if rest.contains '/' then none
    else some ⟨rest⟩
  else none

/-- Model of `ioutil.ReadDir dir` (names only), in directory order. -/
def osReadDir (fs : FS) (dir : String) : List String :=
  fs.files.filterMap (fun e => dirEntryName dir e.1)

/-- Model of the Go `strings.Split s sep` for a one-character separator `sep`. -/
def splitChar (sep : Char) : List Char → List (List Char)
  | [] => [[]]
  | c :: rest =>
    if c = sep then [] :: splitChar sep rest
    else
      match splitChar sep rest with
      | [] => [[c]]
      | g :: gs => (c :: g) :: gs

/-- The characters of `s` before the first occurrence of `sep`
(all of `s` when `sep` does not occur): this is `strings.Split(s, sep)[0]`
for a non-empty separator. -/
def beforeFirstSub (sep : List Char) : List Char → List Char
  | [] => []
  | c :: rest =>
    if beginsWith sep (c :: rest) then []
    else c :: beforeFirstSub sep rest

/-- Model of `strings.Split(name, ".json")[0]` from `getProxies`. -/
def splitJsonHead (name : String) : String :=
  ⟨beforeFirstSub ".json".data name.data⟩

/-- An HTTP response: final status and body. -/
structure Response where
  status : Nat
  body : String
deriving DecidableEq

/-- Model of the `net/http` response writer: the status is committed by the first
`WriteHeader` (or implicitly set to 200 by the first `Write`);
subsequent `WriteHeader` calls are ignored. -/
structure RespWriter where
  status : Option Nat
  body : String
deriving DecidableEq

def RespWriter.empty : RespWriter := ⟨none, ""⟩

def RespWriter.writeHeader (w : RespWriter) (code : Nat) : RespWriter :=
  match w.status with
  | some _ => w
  | none => ⟨some code, w.body⟩

def RespWriter.write (w : RespWriter) (s : String) : RespWriter :=
  ⟨some (w.status.getD 200), w.body ++ s⟩

def RespWriter.finish (w : RespWriter) : Response :=
  ⟨w.status.getD 200, w.body⟩

/-- An HTTP request as the handlers see it: `authHeader` is
`r.Header.Get("Authorization")` (`""` when the header is absent),
`nameVar` is `mux.Vars(r)["name"]`, `body` the request body. -/
structure Request where
  authHeader : String
  nameVar : String
  body : String

/-- Model of `json.NewEncoder(w).Encode(map[string]string\x7b"error": msg\x7d)`:
a one-key JSON object followed by Encode's newline (string escaping is
elided: every message used is plain text). -/
def encodeErrorObj (msg : String) : String :=
  "\x7b\"error\":\"" ++ msg ++ "\"\x7d\n"

def jsonQuote (s : String) : String := "\"" ++ s ++ "\""

/-- Model of the Go `json` encoding of a `[]string` built with `append` from `nil`:
`null` for the nil slice, a JSON array otherwise; `Encode` appends a
newline. (String escaping elided: names used in proofs are plain.) -/
def encodeStringList (l : List String) : String :=
  match l with
  | [] => "null\n"
  | _ => "[" ++ String.intercalate "," (l.map jsonQuote) ++ "]\n"

/-- Embedding of `authenticateMiddleware` (api.go:23-56): checks the `Authorization`
header against the loaded bearer token, denying with 401 and a JSON
reason, in order: missing header, malformed header
(`strings.Split(authHeader, " ")` not exactly `["Bearer", token]`),
wrong token; otherwise runs the wrapped handler. -/
def authenticateMiddleware (bearerToken : String)
    (next : Request → RespWriter → RespWriter) :
    Request → RespWriter → RespWriter := fun r w =>
  let authHeader := r.authHeader
  if authHeader = "" then
    (w.writeHeader 401).write (encodeErrorObj "No authorization header provided")
  else
    let headerParts := splitChar ' ' authHeader.data
    if headerParts.length ≠ 2 ∨ headerParts.headI ≠ "Bearer".data then
      (w.writeHeader 401).write (encodeErrorObj "Invalid authorization header format")
    else
      let token := headerParts.getD 1 []
      if token ≠ bearerToken.data then
        (w.writeHeader 401).write (encodeErrorObj "Invalid token")
      else
        next r w

/-- Embedding of `getHome` (api.go:116-118): does nothing (empty 200). -/
def getHome : Request → RespWriter → RespWriter := fun _ w => w

/-- The route registered for `GET /` (api.go:89): `getHome` wrapped in
`authenticateMiddleware`, like every other route. -/
def rootRoute (bearerToken : String) : Request → RespWriter → RespWriter :=
  authenticateMiddleware bearerToken getHome

/-- Embedding of `getProxies` (api.go:121-142): 500 when the directory cannot be
read; otherwise encodes, for every file in the directory,
`strings.Split(file.Name(), ".json")[0]`. (Encoding a `[]string`
cannot fail, so the encoder-error branch is unreachable.) -/
def getProxies (configPath : String) (o : IOOracle) (fs : FS)
    (_r : Request) (w : RespWriter) : RespWriter :=
  if o.readDirFails configPath then w.writeHeader 500
  else
    let files := osReadDir fs configPath
    let configs := files.map (fun name => splitJsonHead name)
    w.write (encodeStringList configs)

/-- Embedding of `getProxy` (api.go:145-170): opens `configPath + "/" + name + ".json"`;
404 on any open error, 500 on a read error, otherwise writes the stored
bytes verbatim. (A failure of the response `Write` itself is a transport
condition outside the model.) -/
def getProxy (configPath : String) (o : IOOracle) (fs : FS)
    (r : Request) (w : RespWriter) : RespWriter :=
  let fileName := r.nameVar ++ ".json"
  match osOpen o fs (configPath ++ "/" ++ fileName) with
  | none => w.writeHeader 404
  | some content =>
    if o.readFails (configPath ++ "/" ++ fileName) then w.writeHeader 500
    else w.write content

/-- Embedding of `checkJSONAndRegister` (api.go:211-238): unmarshal, validate the two
required fields, write the raw bytes to `path + ".temp"`, rename the
temp file onto `path`; `false` on any failure.  `unmarshal` stands for
`json.Unmarshal` into `ProxyConfig` (`none` = error). -/
def checkJSONAndRegister (unmarshal : String → Option ProxyConfig)
    (o : IOOracle) (rawData filename configPath : String) (fs : FS) :
    Bool × FS :=
  match unmarshal rawData with
  | none => (false, fs)
  | some cfg =>
    if cfg.domainNames.length < 1 ∨ cfg.proxyTo = "" then (false, fs)
    else
      let path := configPath ++ "/" ++ filename
      let temppath := path ++ ".temp"
      let w1 := osWriteFile o fs temppath rawData
      if w1.1 = false then (false, w1.2)
      else
        let r1 := osRename o w1.2 temppath path
        if r1.1 = false then (false, r1.2)
        else (true, r1.2)

def successBody : String :=
  "\x7b\x27success\x27: true, \x27message\x27: \x27the proxy has been added succesfully\x27\x7d"

def invalidBody : String :=
  "\x7b\x27success\x27: false, \x27message\x27: \x27domainNames and proxyTo could not be found\x27\x7d"

/-- Embedding of `addProxyWithName` (api.go:173-194): 400 on a body-read error or an
empty body; otherwise 200/400 according to `checkJSONAndRegister`. -/
def addProxyWithName (unmarshal : String → Option ProxyConfig)
    (configPath : String) (o : IOOracle) (fs : FS)
    (r : Request) (w : RespWriter) : RespWriter × FS :=
  let fileName := r.nameVar ++ ".json"
  if o.bodyReadFails = true ∨ r.body = "" then (w.writeHeader 400, fs)
  else
    let res := checkJSONAndRegister unmarshal o r.body fileName configPath fs
    if res.1 then ((w.writeHeader 200).write successBody, res.2)
    else ((w.writeHeader 400).write invalidBody, res.2)

/-- Embedding of `removeProxy` (api.go:197-208): `os.Remove` on the file; on failure
status 204 (`http.StatusNoContent`) with the error text as body; on
success nothing is written (implicit empty 200). -/
def removeProxy (configPath : String) (o : IOOracle) (fs : FS)
    (r : Request) (w : RespWriter) : RespWriter × FS :=
  let file := r.nameVar ++ ".json"
  let res := osRemove o fs (configPath ++ "/" ++ file)
  match res.1 with
  | some errMsg => ((w.writeHeader 204).write errMsg, res.2)
  | none => (w, res.2)

/-- POSIX-style resolution of `.` , `..` and empty segments, used only to
give meaning to "a path outside the configuration directory". -/
def normSegsAux : List (List Char) → List (List Char) → List (List Char)
  | stack, [] => stack.reverse
  | stack, s :: rest =>
    if s = "..".data then normSegsAux stack.tail rest
    else if s = ".".data then normSegsAux stack rest
    else if s = [] then normSegsAux stack rest
    else normSegsAux (s :: stack) rest

/-- Join path segments with `/`. -/
def joinSlash : List (List Char) → List Char
  | [] => []
  | [g] => g
  | g :: gs => g ++ '/' :: joinSlash gs

def normalizePath (p : String) : String :=
  ⟨joinSlash (normSegsAux [] (splitChar '/' p.data))⟩

/-- A sample deserializer standing for `json.Unmarshal`, used to
instantiate witnesses: every body parses to the example configuration
of spec §8. -/
def unmarshalExample : String → Option ProxyConfig :=
  fun _ => some ⟨["example.com"], "10.0.0.5:25565"⟩

/-- The empty configuration directory. -/
def emptyFS : FS := ⟨[]⟩

/-- An environment in which every `os.WriteFile` fails (e.g. a full disk). -/
def writeFailOracle : IOOracle :=
  { noFailOracle with writeFails := fun _ => true }

/-- An environment in which every `os.Open` fails (e.g. permissions)
even when the file exists. -/
def openFailOracle : IOOracle :=
  { noFailOracle with openFails := fun _ => true }

/-! ### Association-list and filesystem lemmas -/

theorem lookupFile_eraseFile_self (l : List (String × String)) (p : String) :
    lookupFile (eraseFile l p) p = none := by
  induction l with
  | nil => rfl
  | cons e rest ih =>
    by_cases h : e.1 = p
    · simpa [eraseFile, h] using ih
    · simp [eraseFile, lookupFile, h, ih]

theorem lookupFile_eraseFile_ne (l : List (String × String)) {p q : String}
    (h : q ≠ p) : lookupFile (eraseFile l p) q = lookupFile l q := by
  induction l with
  | nil => rfl
  | cons e rest ih =>
    by_cases h1 : e.1 = p
    · have h2 : e.1 ≠ q := fun hq => h (hq.symm.trans h1)
      simp [eraseFile, lookupFile, h1, h2, ih, Ne.symm h]
    · by_cases h2 : e.1 = q
      · simp [eraseFile, lookupFile, h1, h2, h]
      · simp [eraseFile, lookupFile, h1, h2, ih]

theorem FS.get_setFile_self (fs : FS) (p c : String) :
    (fs.setFile p c).get p = some c := by
  simp [FS.get, FS.setFile, lookupFile]

theorem FS.get_setFile_ne (fs : FS) {p q : String} (c : String) (h : q ≠ p) :
    (fs.setFile p c).get q = fs.get q := by
  have h1 : p ≠ q := fun e => h e.symm
  simp [FS.get, FS.setFile, lookupFile, h1, lookupFile_eraseFile_ne _ h]

theorem FS.get_erase_self (fs : FS) (p : String) : (fs.erase p).get p = none :=
  lookupFile_eraseFile_self _ _

theorem FS.get_erase_ne (fs : FS) {p q : String} (h : q ≠ p) :
    (fs.erase p).get q = fs.get q :=
  lookupFile_eraseFile_ne _ h

theorem FS.get_setOpt_ne (fs : FS) {p q : String} (c : Option String) (h : q ≠ p) :
    (fs.setOpt p c).get q = fs.get q := by
  cases c with
  | none => exact FS.get_erase_ne fs h
  | some c => exact FS.get_setFile_ne fs c h

/-! ### String lemmas -/

theorem string_empty_append (s : String) : "" ++ s = s :=
  String.ext (by rw [String.data_append]; rfl)

theorem string_ne_append (s t : String) (h : t.data ≠ []) : s ≠ s ++ t := by
  intro he
  have hd : s.data ++ ([] : List Char) = s.data ++ t.data := by
    simpa [String.data_append] using congrArg String.data he
  exact h (List.append_cancel_left hd).symm

theorem path_ne_temp (p : String) : p ≠ p ++ ".temp" :=
  string_ne_append p ".temp" (by decide)

/-! ### Response-writer lemmas -/

theorem finish_writeHeader_empty (c : Nat) :
    (RespWriter.empty.writeHeader c).finish = ⟨c, ""⟩ := rfl

theorem finish_writeHeader_write_empty (c : Nat) (s : String) :
    ((RespWriter.empty.writeHeader c).write s).finish = ⟨c, s⟩ := by
  simp [RespWriter.empty, RespWriter.writeHeader, RespWriter.write, RespWriter.finish,
    string_empty_append]

theorem finish_write_empty (s : String) :
    (RespWriter.empty.write s).finish = ⟨200, s⟩ := by
  simp [RespWriter.empty, RespWriter.write, RespWriter.finish, string_empty_append]

/-! ### `strings.Split` lemmas -/

theorem splitChar_no_sep (sep : Char) (l : List Char) (h : sep ∉ l) :
    splitChar sep l = [l] := by
  induction l with
  | nil => rfl
  | cons c rest ih =>
    have hcs : ¬(c = sep) := fun e => h (by rw [e]; exact List.mem_cons_self _ _)
    have h2 : sep ∉ rest := fun hr => h (List.mem_cons_of_mem _ hr)
    simp [splitChar, hcs, ih h2]

theorem splitChar_append_sep (sep : Char) (l m : List Char) (h : sep ∉ l) :
    splitChar sep (l ++ sep :: m) = l :: splitChar sep m := by
  induction l with
  | nil => simp [splitChar]
  | cons c rest ih =>
    have hcs : ¬(c = sep) := fun e => h (by rw [e]; exact List.mem_cons_self _ _)
    have h2 : sep ∉ rest := fun hr => h (List.mem_cons_of_mem _ hr)
    simp [splitChar, hcs, ih h2]

/-! ### Authentication middleware evaluation lemmas -/

theorem bearer_data (token : String) :
    ("Bearer " ++ token).data = "Bearer".data ++ ' ' :: token.data := by
  rw [String.data_append]
  have h1 : "Bearer ".data = "Bearer".data ++ [' '] := by decide
  rw [h1, List.append_assoc]
  rfl

theorem bearer_header_ne_empty (token : String) : ("Bearer " ++ token) ≠ "" := by
  intro he
  have h1 := congrArg String.data he
  rw [bearer_data] at h1
  have h2 : "Bearer".data ++ ' ' :: token.data = ([] : List Char) := h1
  rcases List.append_eq_nil.mp h2 with ⟨_, h4⟩
  exact List.cons_ne_nil _ _ h4

theorem splitChar_bearer (token : String) (h : ' ' ∉ token.data) :
    splitChar ' ' ("Bearer".data ++ ' ' :: token.data) = ["Bearer".data, token.data] := by
  rw [splitChar_append_sep _ _ _ (by decide), splitChar_no_sep _ _ h]

theorem authenticateMiddleware_no_header (secret : String)
    (next : Request → RespWriter → RespWriter) (r : Request) (w : RespWriter)
    (h : r.authHeader = "") :
    authenticateMiddleware secret next r w
      = (w.writeHeader 401).write (encodeErrorObj "No authorization header provided") := by
  simp only [authenticateMiddleware]
  rw [if_pos h]

theorem authenticateMiddleware_malformed (secret : String)
    (next : Request → RespWriter → RespWriter) (r : Request) (w : RespWriter)
    (h0 : r.authHeader ≠ "")
    (h1 : (splitChar ' ' r.authHeader.data).length ≠ 2 ∨
          (splitChar ' ' r.authHeader.data).headI ≠ "Bearer".data) :
    authenticateMiddleware secret next r w
      = (w.writeHeader 401).write (encodeErrorObj "Invalid authorization header format") := by
  simp only [authenticateMiddleware]
  rw [if_neg h0, if_pos h1]

theorem authenticateMiddleware_bad_token (secret token : String)
    (next : Request → RespWriter → RespWriter) (r : Request) (w : RespWriter)
    (hh : r.authHeader = "Bearer " ++ token)
    (hns : ' ' ∉ token.data) (hne : token ≠ secret) :
    authenticateMiddleware secret next r w
      = (w.writeHeader 401).write (encodeErrorObj "Invalid token") := by
  have h0 : r.authHeader ≠ "" := by rw [hh]; exact bearer_header_ne_empty token
  have hs : splitChar ' ' r.authHeader.data = ["Bearer".data, token.data] := by
    rw [hh, bearer_data]; exact splitChar_bearer token hns
  have htok : token.data ≠ secret.data := fun e => hne (String.ext e)
  simp only [authenticateMiddleware]
  rw [if_neg h0, hs]
  simp [List.headI, htok]

theorem authenticateMiddleware_allow (secret : String)
    (next : Request → RespWriter → RespWriter) (r : Request) (w : RespWriter)
    (hns : ' ' ∉ secret.data) (hh : r.authHeader = "Bearer " ++ secret) :
    authenticateMiddleware secret next r w = next r w := by
  have h0 : r.authHeader ≠ "" := by rw [hh]; exact bearer_header_ne_empty secret
  have hs : splitChar ' ' r.authHeader.data = ["Bearer".data, secret.data] := by
    rw [hh, bearer_data]; exact splitChar_bearer secret hns
  simp only [authenticateMiddleware]
  rw [if_neg h0, hs]
  simp [List.headI]

/-! ### `checkJSONAndRegister` case lemmas -/

theorem checkJSON_invalid (unmarshal : String → Option ProxyConfig) (o : IOOracle)
    (rawData filename configPath : String) (fs : FS)
    (h : unmarshal rawData = none ∨
         ∃ cfg, unmarshal rawData = some cfg ∧
           (cfg.domainNames = [] ∨ cfg.proxyTo = "")) :
    checkJSONAndRegister unmarshal o rawData filename configPath fs = (false, fs) := by
  rcases h with h | ⟨cfg, hc, hv⟩
  · simp [checkJSONAndRegister, h]
  · have hcond : cfg.domainNames.length < 1 ∨ cfg.proxyTo = "" := by
      rcases hv with hv | hv
      · exact Or.inl (by simp [hv])
      · exact Or.inr hv
    simp only [checkJSONAndRegister, hc]
    rw [if_pos hcond]

theorem checkJSON_writeFail (unmarshal : String → Option ProxyConfig) (o : IOOracle)
    (rawData filename configPath : String) (fs : FS) (cfg : ProxyConfig)
    (hum : unmarshal rawData = some cfg) (hdn : cfg.domainNames ≠ [])
    (hpt : cfg.proxyTo ≠ "")
    (hw : o.writeFails (configPath ++ "/" ++ filename ++ ".temp") = true) :
    checkJSONAndRegister unmarshal o rawData filename configPath fs
      = (false, fs.setOpt (configPath ++ "/" ++ filename ++ ".temp")
          (o.failContent (configPath ++ "/" ++ filename ++ ".temp"))) := by
  simp [checkJSONAndRegister, hum, hdn, hpt, osWriteFile, hw]

theorem checkJSON_renameFail (unmarshal : String → Option ProxyConfig) (o : IOOracle)
    (rawData filename configPath : String) (fs : FS) (cfg : ProxyConfig)
    (hum : unmarshal rawData = some cfg) (hdn : cfg.domainNames ≠ [])
    (hpt : cfg.proxyTo ≠ "")
    (hw : o.writeFails (configPath ++ "/" ++ filename ++ ".temp") = false)
    (hr : o.renameFails (configPath ++ "/" ++ filename ++ ".temp")
            (configPath ++ "/" ++ filename) = true) :
    checkJSONAndRegister unmarshal o rawData filename configPath fs
      = (false, fs.setFile (configPath ++ "/" ++ filename ++ ".temp") rawData) := by
  simp [checkJSONAndRegister, hum, hdn, hpt, osWriteFile, hw, osRename,
    FS.get_setFile_self, hr]

theorem checkJSON_success (unmarshal : String → Option ProxyConfig) (o : IOOracle)
    (rawData filename configPath : String) (fs : FS) (cfg : ProxyConfig)
    (hum : unmarshal rawData = some cfg) (hdn : cfg.domainNames ≠ [])
    (hpt : cfg.proxyTo ≠ "")
    (hw : o.writeFails (configPath ++ "/" ++ filename ++ ".temp") = false)
    (hr : o.renameFails (configPath ++ "/" ++ filename ++ ".temp")
            (configPath ++ "/" ++ filename) = false) :
    checkJSONAndRegister unmarshal o rawData filename configPath fs
      = (true, ((fs.setFile (configPath ++ "/" ++ filename ++ ".temp") rawData).erase
          (configPath ++ "/" ++ filename ++ ".temp")).setFile
          (configPath ++ "/" ++ filename) rawData) := by
  simp [checkJSONAndRegister, hum, hdn, hpt, osWriteFile, hw, osRename,
    FS.get_setFile_self, hr]

theorem checkJSON_true_stores (unmarshal : String → Option ProxyConfig) (o : IOOracle)
    (rawData filename configPath : String) (fs : FS)
    (h : (checkJSONAndRegister unmarshal o rawData filename configPath fs).1 = true) :
    checkJSONAndRegister unmarshal o rawData filename configPath fs
      = (true, ((fs.setFile (configPath ++ "/" ++ filename ++ ".temp") rawData).erase
          (configPath ++ "/" ++ filename ++ ".temp")).setFile
          (configPath ++ "/" ++ filename) rawData) := by
  cases hum : unmarshal rawData with
  | none => rw [checkJSON_invalid _ _ _ _ _ _ (Or.inl hum)] at h; simp at h
  | some cfg =>
    by_cases hdn : cfg.domainNames = []
    · rw [checkJSON_invalid _ _ _ _ _ _ (Or.inr ⟨cfg, hum, Or.inl hdn⟩)] at h
      simp at h
    · by_cases hpt : cfg.proxyTo = ""
      · rw [checkJSON_invalid _ _ _ _ _ _ (Or.inr ⟨cfg, hum, Or.inr hpt⟩)] at h
        simp at h
      · cases hw : o.writeFails (configPath ++ "/" ++ filename ++ ".temp") with
        | true =>
          rw [checkJSON_writeFail _ _ _ _ _ _ _ hum hdn hpt hw] at h
          simp at h
        | false =>
          cases hr : o.renameFails (configPath ++ "/" ++ filename ++ ".temp")
              (configPath ++ "/" ++ filename) with
          | true =>
            rw [checkJSON_renameFail _ _ _ _ _ _ _ hum hdn hpt hw hr] at h
            simp at h
          | false => exact checkJSON_success _ _ _ _ _ _ _ hum hdn hpt hw hr

/-! ### Claim theorems -/

/-- C4 (amended): the authentication middleware denies in order — a
missing `Authorization` header with 401 and the no-credential reason; a
header that `strings.Split(·, " ")` does not cut into exactly
`["Bearer", token]` with 401 and the malformed reason; a space-free
token different from the loaded secret with 401 and the invalid-token
reason — and it runs the wrapped handler on `"Bearer " ++ secret`
provided the secret contains no space (a secret containing a space makes
every header, including that one, fail the two-token test; see the
counterexample). Each denial returns the 401 response directly: the
wrapped handler never runs. -/
theorem c4_auth_gate_decision (secret : String)
    (next : Request → RespWriter → RespWriter) (r : Request) (w : RespWriter) :
    (r.authHeader = "" →
      authenticateMiddleware secret next r w
        = (w.writeHeader 401).write (encodeErrorObj "No authorization header provided")) ∧
    (r.authHeader ≠ "" →
      ((splitChar ' ' r.authHeader.data).length ≠ 2 ∨
        (splitChar ' ' r.authHeader.data).headI ≠ "Bearer".data) →
      authenticateMiddleware secret next r w
        = (w.writeHeader 401).write (encodeErrorObj "Invalid authorization header format")) ∧
    (∀ token : String, r.authHeader = "Bearer " ++ token → ' ' ∉ token.data →
      token ≠ secret →
      authenticateMiddleware secret next r w
        = (w.writeHeader 401).write (encodeErrorObj "Invalid token")) ∧
    (' ' ∉ secret.data → r.authHeader = "Bearer " ++ secret →
      authenticateMiddleware secret next r w = next r w) :=
  ⟨fun h => authenticateMiddleware_no_header secret next r w h,
   fun h0 h1 => authenticateMiddleware_malformed secret next r w h0 h1,
   fun token hh hns hne => authenticateMiddleware_bad_token secret token next r w hh hns hne,
   fun hns hh => authenticateMiddleware_allow secret next r w hns hh⟩

/-- C4 witness: with secret "secret123", a request without the header is
denied with the no-credential reason and a request with header
"Bearer secret123" reaches the wrapped handler. -/
theorem c4_auth_gate_decision_witness :
    authenticateMiddleware "secret123" getHome ⟨"", "", ""⟩ RespWriter.empty
      = (RespWriter.empty.writeHeader 401).write
          (encodeErrorObj "No authorization header provided") ∧
    authenticateMiddleware "secret123" getHome ⟨"Bearer secret123", "", ""⟩ RespWriter.empty
      = getHome ⟨"Bearer secret123", "", ""⟩ RespWriter.empty :=
  ⟨(c4_auth_gate_decision "secret123" getHome ⟨"", "", ""⟩ RespWriter.empty).1 rfl,
   (c4_auth_gate_decision "secret123" getHome
      ⟨"Bearer secret123", "", ""⟩ RespWriter.empty).2.2.2 (by decide) (by decide)⟩

/-- C4 counterexample: with loaded secret "a b" (legal: config loading
only requires non-emptiness), the header "Bearer a b" — exactly
"Bearer " followed by the configured secret — is denied as malformed
(401), where the claim requires it to be allowed. -/
theorem c4_space_secret_denied_counterexample :
    "Bearer a b" = "Bearer " ++ "a b" ∧
    (authenticateMiddleware "a b" (fun _ w => w.write "HANDLER")
        ⟨"Bearer a b", "", ""⟩ RespWriter.empty).finish
      = ⟨401, encodeErrorObj "Invalid authorization header format"⟩ ∧
    ((fun (_ : Request) (w : RespWriter) => w.write "HANDLER")
        ⟨"Bearer a b", "", ""⟩ RespWriter.empty).finish = ⟨200, "HANDLER"⟩ := by
  decide

/-- C8 counterexample: the root route is wrapped in the authentication
middleware (api.go line 89), so `GET /` with no `Authorization` header
answers 401, not the empty 200 the claim requires. -/
theorem c8_root_requires_auth_counterexample :
    (rootRoute "secret123" ⟨"", "", ""⟩ RespWriter.empty).finish
      = ⟨401, encodeErrorObj "No authorization header provided"⟩ ∧
    (rootRoute "secret123" ⟨"", "", ""⟩ RespWriter.empty).finish.status ≠ 200 := by
  decide

/-- C8 (amended): `GET /` is guarded exactly like every other route:
without an `Authorization` header it returns 401 with the no-credential
reason; with `Bearer <secret>` (space-free secret) it returns the empty
200 of the no-op home handler. -/
theorem c8_root_route_guarded (secret nm bd : String) (hns : ' ' ∉ secret.data) :
    (rootRoute secret ⟨"", nm, bd⟩ RespWriter.empty).finish
      = ⟨401, encodeErrorObj "No authorization header provided"⟩ ∧
    (rootRoute secret ⟨"Bearer " ++ secret, nm, bd⟩ RespWriter.empty).finish
      = ⟨200, ""⟩ := by
  constructor
  · simp only [rootRoute]
    rw [authenticateMiddleware_no_header secret getHome _ _ rfl]
    exact finish_writeHeader_write_empty 401 _
  · simp only [rootRoute]
    rw [authenticateMiddleware_allow secret getHome _ _ hns rfl]
    rfl

/-- C8 witness: the amended root-route behaviour at secret "secret123". -/
theorem c8_root_route_guarded_witness :
    (rootRoute "secret123" ⟨"", "", ""⟩ RespWriter.empty).finish
      = ⟨401, encodeErrorObj "No authorization header provided"⟩ ∧
    (rootRoute "secret123" ⟨"Bearer " ++ "secret123", "", ""⟩ RespWriter.empty).finish
      = ⟨200, ""⟩ :=
  c8_root_route_guarded "secret123" "" "" (by decide)

/-- C6 (amended): GET /proxies responds 500 when the directory cannot be
read; otherwise it responds 200 with, for EVERY file in the directory
(committed or not), the part of its filename before the first occurrence
of ".json" — so a transient `a.json.temp` IS reported as "a" (see the
counterexample), and a name without ".json" is reported with its
extension intact. -/
theorem c6_list_names_before_first_json (configPath : String) (o : IOOracle)
    (fs : FS) (r : Request) :
    (o.readDirFails configPath = true →
      (getProxies configPath o fs r RespWriter.empty).finish = ⟨500, ""⟩) ∧
    (o.readDirFails configPath = false →
      (getProxies configPath o fs r RespWriter.empty).finish
        = ⟨200, encodeStringList ((osReadDir fs configPath).map splitJsonHead)⟩) := by
  constructor
  · intro h
    simp only [getProxies]
    rw [if_pos h]
    exact finish_writeHeader_empty 500
  · intro h
    have hne : ¬(o.readDirFails configPath = true) := by simp [h]
    simp only [getProxies]
    rw [if_neg hne]
    exact finish_write_empty _

/-- C6 witness: a directory holding the committed file `configs/b.json`
is listed as the 200 encoding of its names. -/
theorem c6_list_names_witness :
    (getProxies "configs" noFailOracle ⟨[("configs/b.json", "Y")]⟩
        ⟨"", "", ""⟩ RespWriter.empty).finish
      = ⟨200, encodeStringList ((osReadDir ⟨[("configs/b.json", "Y")]⟩ "configs").map
          splitJsonHead)⟩ :=
  (c6_list_names_before_first_json "configs" noFailOracle ⟨[("configs/b.json", "Y")]⟩
    ⟨"", "", ""⟩).2 rfl

/-- C6 counterexample: with only the transient `configs/a.json.temp` in
the directory (a mid-write state), GET /proxies reports "a" although the
committed `configs/a.json` does not exist: the temp file is reported as
a committed configuration, contrary to the claim. -/
theorem c6_temp_file_listed_counterexample :
    (getProxies "configs" noFailOracle ⟨[("configs/a.json.temp", "X")]⟩
        ⟨"", "", ""⟩ RespWriter.empty).finish = ⟨200, "[\"a\"]\n"⟩ ∧
    FS.get ⟨[("configs/a.json.temp", "X")]⟩ "configs/a.json" = none := by
  decide

/-- C7 (amended): GET /proxies/ a name responds 404 exactly when the
`os.Open` call fails — which covers every case where no file exists but
also an open failure on an existing file (the code does not distinguish
them; see the counterexample) — 500 when reading the opened file fails,
and on success writes the stored bytes verbatim with 200. -/
theorem c7_get_proxy_status_mapping (configPath : String) (o : IOOracle)
    (fs : FS) (r : Request) :
    (osOpen o fs (configPath ++ "/" ++ (r.nameVar ++ ".json")) = none →
      (getProxy configPath o fs r RespWriter.empty).finish = ⟨404, ""⟩) ∧
    (fs.get (configPath ++ "/" ++ (r.nameVar ++ ".json")) = none →
      osOpen o fs (configPath ++ "/" ++ (r.nameVar ++ ".json")) = none) ∧
    (∀ c, osOpen o fs (configPath ++ "/" ++ (r.nameVar ++ ".json")) = some c →
      o.readFails (configPath ++ "/" ++ (r.nameVar ++ ".json")) = true →
      (getProxy configPath o fs r RespWriter.empty).finish = ⟨500, ""⟩) ∧
    (∀ c, osOpen o fs (configPath ++ "/" ++ (r.nameVar ++ ".json")) = some c →
      o.readFails (configPath ++ "/" ++ (r.nameVar ++ ".json")) = false →
      (getProxy configPath o fs r RespWriter.empty).finish = ⟨200, c⟩) := by
  refine ⟨?_, ?_, ?_, ?_⟩
  · intro h
    simp only [getProxy, h]
    exact finish_writeHeader_empty 404
  · intro h
    simp [osOpen, h]
  · intro c hc hrf
    simp only [getProxy, hc]
    rw [if_pos hrf]
    exact finish_writeHeader_empty 500
  · intro c hc hrf
    simp only [getProxy, hc]
    have hne : ¬(o.readFails (configPath ++ "/" ++ (r.nameVar ++ ".json")) = true) := by
      simp [hrf]
    rw [if_neg hne]
    exact finish_write_empty c

/-- C7 witness: reading the committed `configs/x.json` returns its bytes
verbatim with 200. -/
theorem c7_get_proxy_status_mapping_witness :
    (getProxy "configs" noFailOracle ⟨[("configs/x.json", "data")]⟩
        ⟨"", "x", ""⟩ RespWriter.empty).finish = ⟨200, "data"⟩ :=
  (c7_get_proxy_status_mapping "configs" noFailOracle ⟨[("configs/x.json", "data")]⟩
    ⟨"", "x", ""⟩).2.2.2 "data" (by decide) rfl

/-- C7 counterexample: `configs/x.json` exists with content "data", yet
in an environment where `os.Open` fails (e.g. permission denied) the
handler answers 404 — the claim requires 500 for an I/O failure on an
existing file. -/
theorem c7_open_failure_existing_file_404_counterexample :
    FS.get ⟨[("configs/x.json", "data")]⟩ "configs/x.json" = some "data" ∧
    (getProxy "configs" openFailOracle ⟨[("configs/x.json", "data")]⟩
        ⟨"", "x", ""⟩ RespWriter.empty).finish.status = 404 := by
  decide

/-- C9: when `os.Remove` fails on DELETE (for instance the file is
absent, giving the Go "no such file or directory" error), the handler
responds with the success-range 204 status and puts the error text in
the body; on successful removal nothing is written (implicit empty
200). -/
theorem c9_delete_failure_204_with_error_text (configPath : String) (o : IOOracle)
    (fs : FS) (r : Request) :
    (∀ m, (osRemove o fs (configPath ++ "/" ++ (r.nameVar ++ ".json"))).1 = some m →
      (removeProxy configPath o fs r RespWriter.empty).1.finish = ⟨204, m⟩) ∧
    (fs.get (configPath ++ "/" ++ (r.nameVar ++ ".json")) = none →
      (osRemove o fs (configPath ++ "/" ++ (r.nameVar ++ ".json"))).1
        = some ("remove " ++ (configPath ++ "/" ++ (r.nameVar ++ ".json"))
            ++ ": no such file or directory")) ∧
    ((osRemove o fs (configPath ++ "/" ++ (r.nameVar ++ ".json"))).1 = none →
      (removeProxy configPath o fs r RespWriter.empty).1.finish = ⟨200, ""⟩) := by
  refine ⟨?_, ?_, ?_⟩
  · intro m hm
    simp only [removeProxy, hm]
    exact finish_writeHeader_write_empty 204 m
  · intro h
    simp [osRemove, h]
  · intro h
    simp only [removeProxy, h]
    rfl

/-- C9 witness: deleting the absent name "missing" responds 204 with
the Go removal error text as the body. -/
theorem c9_delete_failure_witness :
    (removeProxy "configs" noFailOracle emptyFS ⟨"", "missing", ""⟩
        RespWriter.empty).1.finish
      = ⟨204, "remove " ++ ("configs" ++ "/" ++ ("missing" ++ ".json"))
          ++ ": no such file or directory"⟩ :=
  (c9_delete_failure_204_with_error_text "configs" noFailOracle emptyFS
    ⟨"", "missing", ""⟩).1 _ (by decide)

/-- C10: each handler addresses exactly the file at
configPath ++ "/" ++ name ++ ".json" with the route name taken verbatim:
GET returns the bytes of that file, a successful `checkJSONAndRegister`
stores the posted bytes at that path, DELETE removes that path; and the
path formed for the name "../x" under directory "configs" normalizes to
"x.json", which is outside the configuration directory. -/
theorem c10_path_formed_verbatim (configPath : String) (o : IOOracle)
    (fs : FS) (r : Request) :
    (∀ c, fs.get (configPath ++ "/" ++ (r.nameVar ++ ".json")) = some c →
      o.openFails (configPath ++ "/" ++ (r.nameVar ++ ".json")) = false →
      o.readFails (configPath ++ "/" ++ (r.nameVar ++ ".json")) = false →
      (getProxy configPath o fs r RespWriter.empty).finish = ⟨200, c⟩) ∧
    (∀ unmarshal rawData,
      (checkJSONAndRegister unmarshal o rawData (r.nameVar ++ ".json")
          configPath fs).1 = true →
      (checkJSONAndRegister unmarshal o rawData (r.nameVar ++ ".json")
          configPath fs).2.get (configPath ++ "/" ++ (r.nameVar ++ ".json"))
        = some rawData) ∧
    (o.removeFails (configPath ++ "/" ++ (r.nameVar ++ ".json")) = false →
      (removeProxy configPath o fs r RespWriter.empty).2.get
          (configPath ++ "/" ++ (r.nameVar ++ ".json")) = none) ∧
    (normalizePath ("configs" ++ "/" ++ "../x" ++ ".json") = "x.json" ∧
      beginsWith ("configs" ++ "/").data "x.json".data = false) := by
  refine ⟨?_, ?_, ?_, by decide⟩
  · intro c hc ho2 hr2
    have hopen : osOpen o fs (configPath ++ "/" ++ (r.nameVar ++ ".json")) = some c := by
      simp [osOpen, hc, ho2]
    simp only [getProxy, hopen]
    have hne : ¬(o.readFails (configPath ++ "/" ++ (r.nameVar ++ ".json")) = true) := by
      simp [hr2]
    rw [if_neg hne]
    exact finish_write_empty c
  · intro unmarshal rawData h
    rw [checkJSON_true_stores unmarshal o rawData _ configPath fs h]
    exact FS.get_setFile_self _ _ _
  · intro h
    have h2 : (removeProxy configPath o fs r RespWriter.empty).2
        = (osRemove o fs (configPath ++ "/" ++ (r.nameVar ++ ".json"))).2 := by
      simp only [removeProxy]
      rcases (osRemove o fs (configPath ++ "/" ++ (r.nameVar ++ ".json"))).1 with _ | m <;> rfl
    rw [h2]
    cases hg : fs.get (configPath ++ "/" ++ (r.nameVar ++ ".json")) with
    | none => simp [osRemove, hg]
    | some c =>
      have hne : ¬(o.removeFails (configPath ++ "/" ++ (r.nameVar ++ ".json")) = true) := by
        simp [h]
      simp only [osRemove, hg]
      rw [if_neg hne]
      exact FS.get_erase_self fs _

/-- C10 witness: with the traversal name "../x", GET serves the file at
"configs/../x.json" — a path outside the configuration directory. -/
theorem c10_path_formed_verbatim_witness :
    (getProxy "configs" noFailOracle ⟨[("configs/../x.json", "SECRET")]⟩
        ⟨"", "../x", ""⟩ RespWriter.empty).finish = ⟨200, "SECRET"⟩ :=
  (c10_path_formed_verbatim "configs" noFailOracle ⟨[("configs/../x.json", "SECRET")]⟩
    ⟨"", "../x", ""⟩).1 "SECRET" (by decide) rfl rfl

/-- C1: for a payload that passes validation (the deserializer yields
non-empty domainNames and non-empty proxyTo) in a failure-free
environment, POST /proxies/ a name stores the submitted bytes verbatim
at configPath/name.json — no reserialization — and a subsequent GET of
the same name answers 200 with a body byte-identical to the posted
payload. -/
theorem c1_post_then_get_returns_posted_bytes
    (unmarshal : String → Option ProxyConfig) (o : IOOracle) (configPath : String)
    (cfg : ProxyConfig) (fs : FS) (r : Request)
    (hraw : r.body ≠ "")
    (hum : unmarshal r.body = some cfg)
    (hdn : cfg.domainNames ≠ []) (hpt : cfg.proxyTo ≠ "")
    (hbr : o.bodyReadFails = false)
    (hw : o.writeFails (configPath ++ "/" ++ (r.nameVar ++ ".json") ++ ".temp") = false)
    (hr : o.renameFails (configPath ++ "/" ++ (r.nameVar ++ ".json") ++ ".temp")
            (configPath ++ "/" ++ (r.nameVar ++ ".json")) = false)
    (ho : o.openFails (configPath ++ "/" ++ (r.nameVar ++ ".json")) = false)
    (hrd : o.readFails (configPath ++ "/" ++ (r.nameVar ++ ".json")) = false) :
    (addProxyWithName unmarshal configPath o fs r RespWriter.empty).1.finish
      = ⟨200, successBody⟩ ∧
    (addProxyWithName unmarshal configPath o fs r RespWriter.empty).2.get
        (configPath ++ "/" ++ (r.nameVar ++ ".json")) = some r.body ∧
    (getProxy configPath o
        (addProxyWithName unmarshal configPath o fs r RespWriter.empty).2
        r RespWriter.empty).finish = ⟨200, r.body⟩ := by
  have hchk := checkJSON_success unmarshal o r.body (r.nameVar ++ ".json") configPath fs cfg
    hum hdn hpt hw hr
  have hcond : ¬(o.bodyReadFails = true ∨ r.body = "") := by
    rintro (h | h)
    · rw [hbr] at h; exact Bool.false_ne_true h
    · exact hraw h
  have hadd : addProxyWithName unmarshal configPath o fs r RespWriter.empty
      = ((RespWriter.empty.writeHeader 200).write successBody,
         ((fs.setFile (configPath ++ "/" ++ (r.nameVar ++ ".json") ++ ".temp")
              r.body).erase
            (configPath ++ "/" ++ (r.nameVar ++ ".json") ++ ".temp")).setFile
            (configPath ++ "/" ++ (r.nameVar ++ ".json")) r.body) := by
    simp only [addProxyWithName]
    rw [if_neg hcond, hchk]
    rfl
  refine ⟨?_, ?_, ?_⟩
  · rw [hadd]
    exact finish_writeHeader_write_empty 200 successBody
  · rw [hadd]
    exact FS.get_setFile_self _ _ _
  · rw [hadd]
    have hopen : osOpen o
        (((fs.setFile (configPath ++ "/" ++ (r.nameVar ++ ".json") ++ ".temp")
              r.body).erase
            (configPath ++ "/" ++ (r.nameVar ++ ".json") ++ ".temp")).setFile
            (configPath ++ "/" ++ (r.nameVar ++ ".json")) r.body)
        (configPath ++ "/" ++ (r.nameVar ++ ".json")) = some r.body := by
      simp [osOpen, FS.get_setFile_self, ho]
    simp only [getProxy, hopen]
    have hne : ¬(o.readFails (configPath ++ "/" ++ (r.nameVar ++ ".json")) = true) := by
      simp [hrd]
    rw [if_neg hne]
    exact finish_write_empty r.body

/-- C1 witness: POST body "RAW" to name "example" on the empty store,
then GET, returns exactly "RAW". -/
theorem c1_post_then_get_witness :
    (getProxy "configs" noFailOracle
        (addProxyWithName unmarshalExample "configs" noFailOracle emptyFS
            ⟨"", "example", "RAW"⟩ RespWriter.empty).2
        ⟨"", "example", "RAW"⟩ RespWriter.empty).finish = ⟨200, "RAW"⟩ :=
  (c1_post_then_get_returns_posted_bytes unmarshalExample noFailOracle "configs"
    ⟨["example.com"], "10.0.0.5:25565"⟩ emptyFS ⟨"", "example", "RAW"⟩
    (by decide) rfl (by decide) (by decide) rfl rfl rfl rfl rfl).2.2

/-- C2: for a validation-passing write, `checkJSONAndRegister` first
writes the full payload to the deterministic sibling temp path
(finalPath ++ ".temp") — a step that never changes the final path — and
then renames the temp file onto the final name; every reachable state
shows the final path holding either its complete previous content or the
complete new payload, and on success exactly the new payload. -/
theorem c2_write_is_temp_then_rename_atomic
    (unmarshal : String → Option ProxyConfig) (o : IOOracle)
    (rawData filename configPath : String) (cfg : ProxyConfig) (fs : FS)
    (hum : unmarshal rawData = some cfg) (hdn : cfg.domainNames ≠ [])
    (hpt : cfg.proxyTo ≠ "") :
    ((osWriteFile o fs (configPath ++ "/" ++ filename ++ ".temp") rawData).2.get
        (configPath ++ "/" ++ filename)
      = fs.get (configPath ++ "/" ++ filename)) ∧
    ((osWriteFile o fs (configPath ++ "/" ++ filename ++ ".temp") rawData).1 = true →
      (osWriteFile o fs (configPath ++ "/" ++ filename ++ ".temp") rawData).2.get
          (configPath ++ "/" ++ filename ++ ".temp") = some rawData) ∧
    ((checkJSONAndRegister unmarshal o rawData filename configPath fs).1 = true →
      checkJSONAndRegister unmarshal o rawData filename configPath fs
        = (true, (osRename o
            (osWriteFile o fs (configPath ++ "/" ++ filename ++ ".temp") rawData).2
            (configPath ++ "/" ++ filename ++ ".temp")
            (configPath ++ "/" ++ filename)).2)) ∧
    ((checkJSONAndRegister unmarshal o rawData filename configPath fs).2.get
        (configPath ++ "/" ++ filename) = fs.get (configPath ++ "/" ++ filename) ∨
      (checkJSONAndRegister unmarshal o rawData filename configPath fs).2.get
        (configPath ++ "/" ++ filename) = some rawData) ∧
    ((checkJSONAndRegister unmarshal o rawData filename configPath fs).1 = true →
      (checkJSONAndRegister unmarshal o rawData filename configPath fs).2.get
        (configPath ++ "/" ++ filename) = some rawData) := by
  have hptemp := path_ne_temp (configPath ++ "/" ++ filename)
  refine ⟨?_, ?_, ?_, ?_, ?_⟩
  · cases hwf : o.writeFails (configPath ++ "/" ++ filename ++ ".temp") with
    | true =>
      simp only [osWriteFile]
      rw [if_pos hwf]
      exact FS.get_setOpt_ne fs _ hptemp
    | false =>
      have hne : ¬(o.writeFails (configPath ++ "/" ++ filename ++ ".temp") = true) := by
        simp [hwf]
      simp only [osWriteFile]
      rw [if_neg hne]
      exact FS.get_setFile_ne fs rawData hptemp
  · intro hsucc
    cases hwf : o.writeFails (configPath ++ "/" ++ filename ++ ".temp") with
    | true =>
      exfalso
      simp only [osWriteFile] at hsucc
      rw [if_pos hwf] at hsucc
      exact Bool.false_ne_true hsucc
    | false =>
      have hne : ¬(o.writeFails (configPath ++ "/" ++ filename ++ ".temp") = true) := by
        simp [hwf]
      simp only [osWriteFile]
      rw [if_neg hne]
      exact FS.get_setFile_self fs _ rawData
  · intro hsucc
    cases hwf : o.writeFails (configPath ++ "/" ++ filename ++ ".temp") with
    | true =>
      rw [checkJSON_writeFail unmarshal o rawData filename configPath fs cfg
        hum hdn hpt hwf] at hsucc
      exact absurd hsucc (by simp)
    | false =>
      cases hrf : o.renameFails (configPath ++ "/" ++ filename ++ ".temp")
          (configPath ++ "/" ++ filename) with
      | true =>
        rw [checkJSON_renameFail unmarshal o rawData filename configPath fs cfg
          hum hdn hpt hwf hrf] at hsucc
        exact absurd hsucc (by simp)
      | false =>
        rw [checkJSON_success unmarshal o rawData filename configPath fs cfg
          hum hdn hpt hwf hrf]
        simp [osWriteFile, osRename, hwf, hrf, FS.get_setFile_self]
  · cases hwf : o.writeFails (configPath ++ "/" ++ filename ++ ".temp") with
    | true =>
      left
      rw [checkJSON_writeFail unmarshal o rawData filename configPath fs cfg
        hum hdn hpt hwf]
      exact FS.get_setOpt_ne fs _ hptemp
    | false =>
      cases hrf : o.renameFails (configPath ++ "/" ++ filename ++ ".temp")
          (configPath ++ "/" ++ filename) with
      | true =>
        left
        rw [checkJSON_renameFail unmarshal o rawData filename configPath fs cfg
          hum hdn hpt hwf hrf]
        exact FS.get_setFile_ne fs rawData hptemp
      | false =>
        right
        rw [checkJSON_success unmarshal o rawData filename configPath fs cfg
          hum hdn hpt hwf hrf]
        exact FS.get_setFile_self _ _ _
  · intro hsucc
    rw [checkJSON_true_stores unmarshal o rawData filename configPath fs hsucc]
    exact FS.get_setFile_self _ _ _

/-- C2 witness: a concrete valid write on the empty store leaves the
final file holding its old content or exactly the submitted bytes. -/
theorem c2_write_atomic_witness :
    (checkJSONAndRegister unmarshalExample noFailOracle "RAW" "example.json" "configs"
        emptyFS).2.get ("configs" ++ "/" ++ "example.json")
      = emptyFS.get ("configs" ++ "/" ++ "example.json") ∨
    (checkJSONAndRegister unmarshalExample noFailOracle "RAW" "example.json" "configs"
        emptyFS).2.get ("configs" ++ "/" ++ "example.json") = some "RAW" :=
  (c2_write_is_temp_then_rename_atomic unmarshalExample noFailOracle "RAW" "example.json"
    "configs" ⟨["example.com"], "10.0.0.5:25565"⟩ emptyFS rfl (by decide)
    (by decide)).2.2.2.1

/-- C3: a POST whose body is empty, fails to deserialize, or
deserializes to an empty domainNames list or an empty proxyTo string
responds 400 and performs no filesystem mutation at all: the state after
the call is the state before it (so the file for the name keeps exactly
its prior content, or stays absent). -/
theorem c3_invalid_post_returns_400_without_mutation
    (unmarshal : String → Option ProxyConfig) (o : IOOracle) (configPath : String)
    (fs : FS) (r : Request)
    (h : r.body = "" ∨ unmarshal r.body = none ∨
         ∃ cfg, unmarshal r.body = some cfg ∧
           (cfg.domainNames = [] ∨ cfg.proxyTo = "")) :
    (addProxyWithName unmarshal configPath o fs r RespWriter.empty).1.finish.status
      = 400 ∧
    (addProxyWithName unmarshal configPath o fs r RespWriter.empty).2 = fs := by
  by_cases hc : (o.bodyReadFails = true ∨ r.body = "")
  · constructor
    · simp only [addProxyWithName]
      rw [if_pos hc]
      rfl
    · simp only [addProxyWithName]
      rw [if_pos hc]
  · have hinv : unmarshal r.body = none ∨
        ∃ cfg, unmarshal r.body = some cfg ∧
          (cfg.domainNames = [] ∨ cfg.proxyTo = "") := by
      rcases h with h | h | h
      · exact absurd (Or.inr h) hc
      · exact Or.inl h
      · exact Or.inr h
    have hchk := checkJSON_invalid unmarshal o r.body (r.nameVar ++ ".json")
      configPath fs hinv
    constructor
    · simp only [addProxyWithName]
      rw [if_neg hc, hchk]
      rfl
    · simp only [addProxyWithName]
      rw [if_neg hc, hchk]
      rfl

/-- C3 witness: POST with an empty body responds 400 and leaves the
empty store untouched. -/
theorem c3_invalid_post_witness :
    (addProxyWithName unmarshalExample "configs" noFailOracle emptyFS
        ⟨"", "bad", ""⟩ RespWriter.empty).1.finish.status = 400 ∧
    (addProxyWithName unmarshalExample "configs" noFailOracle emptyFS
        ⟨"", "bad", ""⟩ RespWriter.empty).2 = emptyFS :=
  c3_invalid_post_returns_400_without_mutation unmarshalExample noFailOracle "configs"
    emptyFS ⟨"", "bad", ""⟩ (Or.inl rfl)

/-- C5 counterexample: a validation-passing POST in an environment where
the temp-file write fails (e.g. a full disk) responds 400 with the
validation-failure body — not the 500 the claim requires for an I/O
failure. -/
theorem c5_io_failure_gets_400_counterexample :
    (addProxyWithName unmarshalExample "configs" writeFailOracle emptyFS
        ⟨"", "example", "RAW"⟩ RespWriter.empty).1.finish = ⟨400, invalidBody⟩ ∧
    (addProxyWithName unmarshalExample "configs" writeFailOracle emptyFS
        ⟨"", "example", "RAW"⟩ RespWriter.empty).1.finish.status ≠ 500 := by
  decide

/-- C5 (amended): when a validation-passing POST hits a temp-write or
rename failure, `checkJSONAndRegister` reports plain failure and the
handler responds 400 with the same body as a validation failure — the
error is not mapped to 500 — while the final file keeps exactly its
prior state. -/
theorem c5_io_failure_maps_to_400
    (unmarshal : String → Option ProxyConfig) (o : IOOracle) (configPath : String)
    (cfg : ProxyConfig) (fs : FS) (r : Request)
    (hraw : r.body ≠ "") (hum : unmarshal r.body = some cfg)
    (hdn : cfg.domainNames ≠ []) (hpt : cfg.proxyTo ≠ "")
    (hbr : o.bodyReadFails = false)
    (hfail : o.writeFails (configPath ++ "/" ++ (r.nameVar ++ ".json") ++ ".temp")
        = true ∨
      (o.writeFails (configPath ++ "/" ++ (r.nameVar ++ ".json") ++ ".temp") = false ∧
       o.renameFails (configPath ++ "/" ++ (r.nameVar ++ ".json") ++ ".temp")
         (configPath ++ "/" ++ (r.nameVar ++ ".json")) = true)) :
    (addProxyWithName unmarshal configPath o fs r RespWriter.empty).1.finish
      = ⟨400, invalidBody⟩ ∧
    (addProxyWithName unmarshal configPath o fs r RespWriter.empty).2.get
        (configPath ++ "/" ++ (r.nameVar ++ ".json"))
      = fs.get (configPath ++ "/" ++ (r.nameVar ++ ".json")) := by
  have hcond : ¬(o.bodyReadFails = true ∨ r.body = "") := by
    rintro (h | h)
    · rw [hbr] at h; exact Bool.false_ne_true h
    · exact hraw h
  have hptemp := path_ne_temp (configPath ++ "/" ++ (r.nameVar ++ ".json"))
  rcases hfail with hw | ⟨hw, hr⟩
  · have hchk := checkJSON_writeFail unmarshal o r.body (r.nameVar ++ ".json")
      configPath fs cfg hum hdn hpt hw
    constructor
    · simp only [addProxyWithName]
      rw [if_neg hcond, hchk]
      exact finish_writeHeader_write_empty 400 invalidBody
    · simp only [addProxyWithName]
      rw [if_neg hcond, hchk]
      exact FS.get_setOpt_ne fs _ hptemp
  · have hchk := checkJSON_renameFail unmarshal o r.body (r.nameVar ++ ".json")
      configPath fs cfg hum hdn hpt hw hr
    constructor
    · simp only [addProxyWithName]
      rw [if_neg hcond, hchk]
      exact finish_writeHeader_write_empty 400 invalidBody
    · simp only [addProxyWithName]
      rw [if_neg hcond, hchk]
      exact FS.get_setFile_ne fs r.body hptemp

/-- C5 witness: the amended behaviour at a concrete failing temp
write. -/
theorem c5_io_failure_maps_to_400_witness :
    (addProxyWithName unmarshalExample "configs" writeFailOracle emptyFS
        ⟨"", "w", "RAW"⟩ RespWriter.empty).1.finish = ⟨400, invalidBody⟩ ∧
    (addProxyWithName unmarshalExample "configs" writeFailOracle emptyFS
        ⟨"", "w", "RAW"⟩ RespWriter.empty).2.get ("configs" ++ "/" ++ ("w" ++ ".json"))
      = emptyFS.get ("configs" ++ "/" ++ ("w" ++ ".json")) :=
  c5_io_failure_maps_to_400 unmarshalExample writeFailOracle "configs"
    ⟨["example.com"], "10.0.0.5:25565"⟩ emptyFS ⟨"", "w", "RAW"⟩
    (by decide) rfl (by decide) (by decide) rfl (Or.inl rfl)

end InfraredApi
